import Mathlib

/-!
Shallow embedding of the CG-MPC-ECDSA two-party ECDSA implementation.

Modelling conventions, used throughout:

* The secp256k1 scalar field is `ZMod q` with `q` the group order
  (`utilities/paillier.rs`, `party_one.rs`).
* The secp256k1 group is cyclic of order `q` and generated by `G`, so a
  curve point is represented by its discrete logarithm with respect to
  `G`: point addition becomes addition in `ZMod q`, `G·s` becomes `s`,
  and scalar multiplication `P * k` becomes `p * k`.  The affine
  x-coordinate of a point (`to_encoded_point(...).x()`), which is not a
  function of group structure alone, is an explicit parameter
  `xcoord : ZMod q → Option ℕ` of every definition that needs it
  (`None` models the identity point, whose encoding has no x).
* SHA-256 (the external `sha2` crate) is an explicit parameter
  `sha : List ℕ → List ℕ` mapping the hashed byte string to the
  32-byte digest; everything the repository does before and after the
  call to `hasher.finalize()` is embedded faithfully.
* The class group (`GmpClassGroup`) and the CL homomorphic cipher live
  in `utilities/class_group.rs`, which the crate declares but whose
  source is not present; following the specification they are embedded
  as abstract types with the operation set the spec fixes
  (`mul`, `pow`, `expo_f`, `encrypt`, `decrypt`, `eval_sum`,
  `eval_scal`), passed as parameters.
* Rust `panic!`/`unwrap()` on a failed value is the `Outcome.panicked`
  constructor, distinct from returned error values.
-/

namespace MPECDSA

/-- The secp256k1 group order, exactly the literal `q` parsed in
`utilities/paillier.rs` and `party_one.rs::online_sign`. -/
def q : ℕ := 115792089237316195423570985008687907852837564279074904382605163141518161494337

/-- A secp256k1 scalar (`k256::Scalar`): an integer mod `q`. -/
abbrev Scalar := ZMod q

instance : NeZero q := ⟨by decide⟩

/-- Big-endian byte-string to integer: models
`BigInt::from_bytes_be(Sign::Plus, bytes)` from the `num_bigint` crate
as used throughout the repository. -/
def bytesToNatBE (l : List ℕ) : ℕ := l.foldl (fun acc b => acc * 256 + b) 0

/-- `scalar_to_bigint` (`utilities/paillier.rs`): the canonical 32-byte
big-endian representation of a scalar read back as an integer, i.e. the
canonical value of the residue. -/
def scalar_to_bigint (s : Scalar) : ℕ := s.val

/-- Model of `k256::Scalar::from_repr` on a 32-byte big-endian buffer of
value `v < 2^256`: the conversion succeeds exactly when the value is a
canonical scalar, i.e. when `v < q`. -/
def scalar_from_repr (v : ℕ) : Option Scalar :=
  if v < q then some (v : Scalar) else none

/-- `scalar_from_bigint` (`utilities/paillier.rs` lines 102-111): take
the big-endian bytes of the magnitude, keep the low-order `min(len,32)`
bytes right-aligned in a zeroed 32-byte buffer — i.e. reduce the
magnitude mod `2^256` — then `Scalar::from_repr(..).unwrap_or(ZERO)`.
The identically named function in `utilities/class_group.rs` (declared
but absent from the crate sources) is modelled by this same in-crate
definition. -/
def scalar_from_bigint (b : ℤ) : Scalar :=
  (scalar_from_repr (b.natAbs % 2 ^ 256)).getD 0

/-- `SECURITY_PARAMETER` (`utilities/mod.rs`). -/
def SECURITY_PARAMETER : ℕ := 128

/-- `CLProof::challenge` (`utilities/cl_proof.rs` lines 85-88), the part
after `hasher.finalize()`: keep the first `SECURITY_PARAMETER/8 = 16`
bytes of the 32-byte digest and read them as a big-endian integer. -/
def clChallengeOfDigest (h : List ℕ) : ℕ :=
  bytesToNatBE (h.take (SECURITY_PARAMETER / 8))

/-- `DLogProof::compute_challenge` (`utilities/k256_helpers.rs` lines
215-217), the part after `hasher.finalize()`: copy all 32 digest bytes
and convert with `Scalar::from_repr(..).unwrap_or(Scalar::ZERO)`. -/
def dlChallengeOfDigest (h : List ℕ) : Scalar :=
  (scalar_from_repr (bytesToNatBE h)).getD 0

/-- Modelled from the spec: the challenge the specification prescribes,
"the hash's low-order 128 bits interpreted big-endian" — the value of
the digest reduced mod `2^128`.  Stated for comparison with the two
challenge functions the source actually computes. -/
def specClaimedChallenge (h : List ℕ) : ℕ :=
  bytesToNatBE h % 2 ^ SECURITY_PARAMETER

/-- Extended-Euclid loop on explicit fuel, carrying the remainder pair
and the Bezout coefficient of the first argument. -/
def egcdLoop : ℕ → ℤ → ℤ → ℤ → ℤ → ℤ × ℤ
  | 0, r0, _, s0, _ => (r0, s0)
  | fuel + 1, r0, r1, s0, s1 =>
    if r1 = 0 then (r0, s0)
    else egcdLoop fuel r1 (r0 % r1) s1 (s0 - (r0 / r1) * s1)

/-- Model of `k256::Scalar::invert` (external crate): the modular
inverse mod the prime `q`, defined (`None` only at values whose gcd
with `q` is not 1, i.e. only at zero). -/
def scalarInvert (a : Scalar) : Option Scalar :=
  let gs := egcdLoop 600 (a.val : ℤ) (q : ℤ) 1 0
  if gs.1 = 1 then some ((gs.2 : ℤ) : Scalar) else none

/-- `Scalar::invert().unwrap_or(Scalar::ZERO)` as used in
`utilities/signature.rs`, `party_one.rs` and `party_two.rs`. -/
def sinv (a : Scalar) : Scalar := (scalarInvert a).getD 0

/-! ## BigInt backends (`classgroup` crate)

`classgroup/src/mpz.rs` implements `Mpz` on dashu's `IBig` and realises
`div_floor`/`mod_floor` with `IBig::div_euclid`/`IBig::rem_euclid`
(remainder always non-negative) — exactly Lean's `Int.ediv`/`Int.emod`.
`classgroup/src/dashu/bigint.rs` implements `BigInt` with truncated
`/`/`%` (Lean's `Int.tdiv`/`Int.tmod`) followed by an explicit
sign-correction step.  Division by zero panics in both backends and is
modelled as `none`. -/

/-- `Mpz::div_floor` (`classgroup/src/mpz.rs`): `IBig::div_euclid`. -/
def mpz_div_floor (a b : ℤ) : Option ℤ :=
  if b = 0 then none else some (a / b)

/-- `Mpz::mod_floor` (`classgroup/src/mpz.rs`): `IBig::rem_euclid`. -/
def mpz_mod_floor (a b : ℤ) : Option ℤ :=
  if b = 0 then none else some (a % b)

/-- `BigInt::div_floor` (`classgroup/src/dashu/bigint.rs` lines
195-212): truncated quotient, minus one when the remainder is non-zero
and the operand signs differ. -/
def dashu_div_floor (a b : ℤ) : Option ℤ :=
  if b = 0 then none
  else
    let qt := a.tdiv b
    let r := a.tmod b
    if r ≠ 0 ∧ ((a < 0) ≠ (b < 0)) then some (qt - 1) else some qt

/-- `BigInt::mod_floor` (`classgroup/src/dashu/bigint.rs` lines
214-227): truncated remainder, plus the divisor when the remainder is
non-zero and the operand signs differ. -/
def dashu_mod_floor (a b : ℤ) : Option ℤ :=
  if b = 0 then none
  else
    let r := a.tmod b
    if r ≠ 0 ∧ ((a < 0) ≠ (b < 0)) then some (r + b) else some r

/-! ## Error kinds and call outcomes -/

/-- `MulEcdsaError` (`utilities/error.rs`), the error enum of the
`multi_party_ecdsa` crate. -/
inductive MulEcdsaError where
  | OpenDLCommFailed | OpenCommZKFailed | VrfyDlogFailed | ZrExcceedSize
  | VrfyPromiseFailed | XcoorNone | VrfyMultiECDSAFailed | VrfyClassGroupFailed
  | GetIndexFailed | SerializeFailed | VrfyVSSFailed | ToStringFailed
  | FromStringFailed | PartyLessThanThreshold | LeftNotEqualRight
  | VrfySignPhaseOneMsgFailed | HandleSignPhaseTwoMsgFailed | OpenGeCommFailed
  | VrfyHomoElGamalFailed | VrfySumatFailed | ComputeDeltaSumFailed
  | VrfyElgamalProofFailed | VrfyClEncProofFailed | VrfyCLDLProofFailed
  | VrfyCLProofFailed | NotLoadKeyGenResult | InvalidPublicKey | FromHexFailed
  | GenerateJsonStringFailed | MissingMsg | InvertZero | GeneralError
  deriving DecidableEq, Repr

/-- Result of a Rust call that can return `Ok`, return `Err`, or
`panic!` (as `.unwrap()` on an error does). -/
inductive Outcome (ε α : Type) where
  | ok (a : α)
  | err (e : ε)
  | panicked
  deriving DecidableEq, Repr

instance {ε α : Type} [DecidableEq ε] [DecidableEq α] :
    DecidableEq (Except ε α) := fun x y =>
  match x, y with
  | .ok a, .ok b =>
    if h : a = b then isTrue (by rw [h])
    else isFalse (fun hc => h (Except.ok.inj hc))
  | .error e, .error f =>
    if h : e = f then isTrue (by rw [h])
    else isFalse (fun hc => h (Except.error.inj hc))
  | .ok _, .error _ => isFalse (fun hc => Except.noConfusion hc)
  | .error _, .ok _ => isFalse (fun hc => Except.noConfusion hc)

/-! ## Curve-side data (discrete-log point model) -/

/-- `EcKeyPair` (`utilities/eckeypair.rs`); `public_share` holds the
discrete log of the public point, so for an honestly built pair
(`EcKeyPair::new`, where `public_share = G·secret_share`) the two
fields are equal. -/
structure EcKeyPair where
  public_share : Scalar
  secret_share : Scalar
  deriving DecidableEq, Repr

/-- `DLogProof` (`utilities/k256_helpers.rs`), with the commitment
point `T` as its discrete log. -/
structure DLogProofM where
  pk_t_rand_commitment : Scalar
  challenge_response : Scalar
  deriving DecidableEq, Repr

/-- `DLCommitments` (`utilities/dl_com_zk.rs`): two hash commitments,
kept as the integers the hashes are stored as. -/
structure DLCommitments where
  pk_commitment : ℕ
  zk_pok_commitment : ℕ
  deriving DecidableEq, Repr

/-- `CommWitness` (`utilities/dl_com_zk.rs`). -/
structure CommWitness where
  pk_commitment_blind_factor : ℕ
  zk_pok_blind_factor : ℕ
  public_share : Scalar
  d_log_proof : DLogProofM
  deriving DecidableEq, Repr

/-- `Signature` (`utilities/signature.rs`). -/
structure Signature where
  s : Scalar
  r : Scalar
  deriving DecidableEq, Repr

/-- `DLogProof::verify` (`utilities/k256_helpers.rs` lines 191-203):
recompute the Fiat-Shamir challenge from the digest of the serialized
public key and commitment, then check `G·z = T + P·e` (in discrete-log
coordinates: `z = t + p·e`). -/
def dlogProofVerify (sha : List ℕ → List ℕ) (pointBytes : Scalar → List ℕ)
    (prf : DLogProofM) (public_key : Scalar) : Except String Unit :=
  let challenge := dlChallengeOfDigest
    (sha (pointBytes public_key ++ pointBytes prf.pk_t_rand_commitment))
  if prf.challenge_response = prf.pk_t_rand_commitment + public_key * challenge
  then .ok ()
  else .error "DLog proof verification failed"

/-- `Signature::verify` (`utilities/signature.rs`): with
`s_inv = s.invert().unwrap_or(ZERO)`, form `u1 = G·(m·s_inv)` and
`u2 = P·(r·s_inv)`, read the x-coordinate of `u1+u2` (an error when the
encoding has none), and accept iff `r` equals that x-coordinate as an
integer and `s < q − s` (the anti-malleability condition). -/
def signatureVerify (xcoord : Scalar → Option ℕ)
    (sig : Signature) (pubkey : Scalar) (message : Scalar) :
    Except MulEcdsaError Unit :=
  let s_inv := sinv sig.s
  let u1 := message * s_inv
  let u2 := pubkey * (sig.r * s_inv)
  match xcoord (u1 + u2) with
  | none => .error .VrfyMultiECDSAFailed
  | some x =>
    if scalar_to_bigint sig.r = x ∧
        scalar_to_bigint sig.s < q - scalar_to_bigint sig.s
    then .ok ()
    else .error .VrfyMultiECDSAFailed

/-- Modelled from the spec: standard secp256k1 ECDSA acceptance, per the
specification's glossary — "verified by `G·(m/s) + P·(r/s) = R` with
`R.x = r`", the x-coordinate taken mod `q`.  Stated only to compare the
code's verifier against it. -/
def ecdsaVerifySpec (xcoord : Scalar → Option ℕ)
    (sig : Signature) (pubkey : Scalar) (message : Scalar) : Prop :=
  ∃ x, xcoord (message * sinv sig.s + pubkey * (sig.r * sinv sig.s)) = some x ∧
    scalar_to_bigint sig.r = x % q

/-! ## MtA sub-protocol (`mta.rs`)

The CL cipher operations come from the absent
`utilities/class_group.rs`; following the specification's abstract
cipher interface they are parameters `encrypt`, `decrypt`, `eval_scal`,
`eval_sum` over abstract types `P`, `S`, `C`.  Randomness
(`Scalar::random`) and the outcome of the CL proof verification are
likewise explicit arguments. -/

/-- `into_mpz` applied to a scalar: the integer value of its canonical
representation, as the exponent handed to `eval_scal`. -/
def into_mpz (a : Scalar) : ℤ := (a.val : ℤ)

/-- `mta::PartyOne`. -/
structure MtaPartyOne (P S : Type) where
  b : Scalar
  t_b : Scalar
  cl_pub_key : P
  cl_priv_key : S

/-- `mta::PartyTwo`. -/
structure MtaPartyTwo where
  a : Scalar
  t_a : Scalar
  deriving DecidableEq, Repr

/-- `MTAFirstRoundMsg`'s statement part (`CLState`): the ciphertext and
the cipher public key.  The accompanying CL proof is abstracted into
the verifier outcome argument of `receive_and_send_msg`. -/
structure CLStateM (P C : Type) where
  cipher : C
  cl_pub_key : P

/-- `mta::PartyOne::generate_send_msg`: encrypt `b` under the given
cipher public key and ship the ciphertext (with a proof of plaintext
knowledge, abstracted). -/
def generate_send_msg {P S C : Type} (encrypt : P → Scalar → C)
    (st : MtaPartyOne P S) (cl_pk : P) : CLStateM P C :=
  { cipher := encrypt cl_pk st.b, cl_pub_key := cl_pk }

/-- `mta::PartyTwo::receive_and_send_msg` (`mta.rs` lines 62-79).  The
freshly drawn scalar is the argument `alpha_tag`; `proofOk` is the
outcome of verifying the received CL proof.  Faithful to the source,
`t_a` is assigned `-alpha_tag` *before* the proof is verified, so the
state update happens on the error path too. -/
def receive_and_send_msg {P C : Type}
    (eval_scal : C → ℤ → C) (eval_sum : C → C → C)
    (encrypt : P → Scalar → C)
    (st : MtaPartyTwo) (alpha_tag : Scalar) (proofOk : Bool)
    (mta_msg : CLStateM P C) :
    MtaPartyTwo × Except String C :=
  let alpha := -alpha_tag
  let st' : MtaPartyTwo := { st with t_a := alpha }
  if proofOk = false then
    (st', .error "verify cl encryption dl proof failed")
  else
    let encrypted_alpha_tag := encrypt mta_msg.cl_pub_key alpha_tag
    let a_scal_c_b := eval_scal mta_msg.cipher (into_mpz st.a)
    let c_a := eval_sum a_scal_c_b encrypted_alpha_tag
    (st', .ok c_a)

/-- `mta::PartyOne::handle_receive_msg`: decrypt the returned
ciphertext into `t_b`. -/
def handle_receive_msg {P S C : Type} (decrypt : S → C → Scalar)
    (st : MtaPartyOne P S) (cl_sk : S) (c_a : C) : MtaPartyOne P S :=
  { st with t_b := decrypt cl_sk c_a }

/-! ## Party one (`party_one.rs`) -/

/-- `party_one::KeyGenResult`. -/
structure KeyGenResultOne where
  keypair : EcKeyPair
  public_signing_key : Scalar
  deriving DecidableEq, Repr

/-- `party_one::MtaConsistencyMsg`; `reshared_public_share` is the
discrete log of the shipped point. -/
structure MtaConsistencyMsg where
  reshared_public_share : Scalar
  r1 : Scalar
  cc : Scalar
  deriving DecidableEq, Repr

/-- `party_one::NonceKEMsg`. -/
structure NonceKEMsg where
  nonce_public_key : Scalar
  dl_proof : DLogProofM
  deriving DecidableEq, Repr

/-- `party_one::Sign`. -/
structure SignOne where
  dl_com_zk_com_rec : DLCommitments
  reshared_keypair : EcKeyPair
  keygen_result : Option KeyGenResultOne
  nonce_pair : EcKeyPair
  r1 : Scalar
  r_x : Scalar
  message : Scalar
  dl_proof : DLogProofM
  online_offline : Bool
  deriving DecidableEq, Repr

/-- `party_one::Sign::new`, restricted to the message-scalar
derivation: the message bytes become a `BigInt` via
`from_bytes_be(Sign::Plus, ..)` and then a scalar via
`scalar_from_bigint`. -/
def signNewMessage (message_bytes : List ℕ) : Scalar :=
  scalar_from_bigint (bytesToNatBE message_bytes : ℤ)

/-- `party_one::Sign::get_nonce_com`. -/
def get_nonce_com (st : SignOne) (c : DLCommitments) : SignOne :=
  { st with dl_com_zk_com_rec := c }

/-- `party_one::Sign::generate_mta_consistency` (`party_one.rs` lines
175-189): `cc = t_b + k₁·r₁ − x₁` (the argument is named `t_a` in the
source but is called with P1's `t_b`).  `keygen_result` is
`.unwrap()`ed, hence `none` on an unloaded key store (a panic). -/
def generate_mta_consistency (st : SignOne) (t_a : Scalar) :
    Option MtaConsistencyMsg :=
  match st.keygen_result with
  | none => none
  | some kg => some
    { reshared_public_share := st.reshared_keypair.public_share
      r1 := st.r1
      cc := t_a + st.reshared_keypair.secret_share * st.r1 -
        kg.keypair.secret_share }

/-- `party_one::Sign::generate_nonce_ke_msg`. -/
def generate_nonce_ke_msg (st : SignOne) : NonceKEMsg :=
  { nonce_public_key := st.nonce_pair.public_share
    dl_proof := st.dl_proof }

/-- `party_one::Sign::verify_nonce_ke_msg` (`party_one.rs` lines
198-214): open the nonce commitment (`DLComZK::verify`, whose
hash-commitment check is the parameter `dlComZkVerify`), verify the
discrete-log proof, then store the x-coordinate of
`R = R₂·ρ₁ + G·(ρ₁·r₁)` as `r_x`. -/
def verify_nonce_ke_msg
    (dlComZkVerify : DLCommitments → CommWitness → Except MulEcdsaError Unit)
    (sha : List ℕ → List ℕ) (pointBytes : Scalar → List ℕ)
    (xcoord : Scalar → Option ℕ)
    (st : SignOne) (nonce_ke_rec : CommWitness) :
    Except MulEcdsaError SignOne := do
  let _ ← dlComZkVerify st.dl_com_zk_com_rec nonce_ke_rec
  match dlogProofVerify sha pointBytes nonce_ke_rec.d_log_proof
      nonce_ke_rec.public_share with
  | .error _ => throw .VrfyDlogFailed
  | .ok _ =>
    let r := nonce_ke_rec.public_share * st.nonce_pair.secret_share +
      st.nonce_pair.secret_share * st.r1
    match xcoord r with
    | none => throw .XcoorNone
    | some x_bigint =>
      pure { st with r_x := scalar_from_bigint (x_bigint : ℤ) }

/-- `party_one::Sign::online_sign` (`party_one.rs` lines 216-234):
`s' = ρ₁⁻¹·(s₂ + r_x·k₁)`, low-s normalise `s = min(s', q − s')`,
assemble `(r_x, s)` and verify it against the joint public key and the
session message before returning it.  `keygen_result` is `.unwrap()`ed. -/
def online_sign (xcoord : Scalar → Option ℕ) (st : SignOne)
    (s2_rec : Scalar) : Outcome MulEcdsaError Signature :=
  match st.keygen_result with
  | none => .panicked
  | some kg =>
    let s_tag := sinv st.nonce_pair.secret_share *
      (s2_rec + st.r_x * st.reshared_keypair.secret_share)
    let s_tag_bigint := scalar_to_bigint s_tag
    let s := min s_tag_bigint (q - s_tag_bigint)
    let signature : Signature := { r := st.r_x, s := scalar_from_bigint (s : ℤ) }
    match signatureVerify xcoord signature kg.public_signing_key st.message with
    | .ok _ => .ok signature
    | .error e => .err e

/-! ## Party two (`party_two.rs`) -/

/-- `party_two::KeyGenResult`. -/
structure KeyGenResultTwo where
  keypair : EcKeyPair
  public_signing_key : Scalar
  other_public_key : Scalar
  deriving DecidableEq, Repr

/-- `party_two::KeyGenSecRoungMsg`. -/
structure KeyGenSecRoungMsg where
  public_share : Scalar
  dl_proof : DLogProofM
  deriving DecidableEq, Repr

/-- `DLComZK` (`utilities/dl_com_zk.rs`): the commitment pair with its
opening witness. -/
structure DLComZKData where
  commitments : DLCommitments
  witness : CommWitness
  deriving DecidableEq, Repr

/-- `party_two::Sign`. -/
structure SignTwo where
  nonce_pair : EcKeyPair
  dl_com_zk_com : DLComZKData
  keygen_result : Option KeyGenResultTwo
  message : Scalar
  reshared_secret_share : Scalar
  r1_rec : Scalar
  r_x : Scalar
  online_offline : Bool
  msg_set : Bool
  deriving DecidableEq, Repr

/-- `party_two::Sign::verify_generate_mta_consistency` (`party_two.rs`
lines 150-177): check `G·(t_a + cc) = X̃₁·(r₁ + ρ₂) − X₁` (the argument
is named `t_b` in the source but is called with P2's `t_a`); on success
set the reshared secret share `x₂ − t_a − cc` and record `r₁`.
`keygen_result` is `.unwrap()`ed. -/
def verify_generate_mta_consistency (st : SignTwo) (t_b : Scalar)
    (mta_consis_rec : MtaConsistencyMsg) : Outcome String SignTwo :=
  match st.keygen_result with
  | none => .panicked
  | some kg =>
    if t_b + mta_consis_rec.cc ≠
        mta_consis_rec.reshared_public_share *
          (mta_consis_rec.r1 + st.nonce_pair.secret_share) -
        kg.other_public_key
    then .err "Verify Mta Consistency Failed"
    else .ok { st with
      reshared_secret_share :=
        kg.keypair.secret_share - t_b - mta_consis_rec.cc
      r1_rec := mta_consis_rec.r1 }

/-- `party_two::Sign::verify_send_nonce_ke_msg` (`party_two.rs` lines
179-195): verify P1's nonce proof, store the x-coordinate of
`R = R₁·(r₁ + ρ₂)` as `r_x`, and hand out the commitment witness. -/
def verify_send_nonce_ke_msg (sha : List ℕ → List ℕ)
    (pointBytes : Scalar → List ℕ) (xcoord : Scalar → Option ℕ)
    (st : SignTwo) (nonce_ke_rec : NonceKEMsg) :
    Except String (SignTwo × CommWitness) :=
  match dlogProofVerify sha pointBytes nonce_ke_rec.dl_proof
      nonce_ke_rec.nonce_public_key with
  | .error _ => .error "Verify DLog failed"
  | .ok _ =>
    let r := nonce_ke_rec.nonce_public_key *
      (st.r1_rec + st.nonce_pair.secret_share)
    match xcoord r with
    | none => .error "get x coor failed"
    | some x_bigint =>
      let st' := { st with r_x := scalar_from_bigint (x_bigint : ℤ) }
      .ok (st', st'.dl_com_zk_com.witness)

/-- `party_two::Sign::online_sign` (`party_two.rs` lines 197-201):
`s₂ = (r₁ + ρ₂)⁻¹·(m + r_x·k₂)`. -/
def online_sign_two (st : SignTwo) : Scalar :=
  sinv (st.r1_rec + st.nonce_pair.secret_share) *
    (st.message + st.r_x * st.reshared_secret_share)

/-! ## CL proof verification (`utilities/cl_proof.rs`)

The class-group element type `G` and its operations (`*`, `pow`,
`expo_f`, `to_bytes`, equality) are abstract parameters, since
`GmpClassGroup` arithmetic is not part of the crate sources. -/

/-- `Ciphertext` of the CL scheme: a pair of class-group elements. -/
structure CLCiphertext (G : Type) where
  c1 : G
  c2 : G

/-- `CLState` (`utilities/cl_proof.rs`) for the CL proof. -/
structure CLStateG (G : Type) where
  cipher : CLCiphertext G
  cl_pub_key : G

/-- `CLProof` transcript (`utilities/cl_proof.rs`). -/
structure CLProofM (G : Type) where
  t1 : G
  t2 : G
  u1 : ℤ
  u2 : ℤ

/-- `CLProof::challenge` (`utilities/cl_proof.rs` lines 73-89): digest
of `c1 ∥ c2 ∥ pk ∥ t1 ∥ t2` (each via `to_bytes`), truncated by
`clChallengeOfDigest`. -/
def cl_challenge {G : Type} (sha : List ℕ → List ℕ) (toBytes : G → List ℕ)
    (public_key : G) (t1 t2 : G) (ciphertext : CLCiphertext G) : ℕ :=
  clChallengeOfDigest (sha (toBytes ciphertext.c1 ++ toBytes ciphertext.c2 ++
    toBytes public_key ++ toBytes t1 ++ toBytes t2))

/-- `CLProof::verify` (`utilities/cl_proof.rs` lines 91-139): recompute
the challenge `k`, then clear a flag on `u1 > s̃·2⁴⁰·2¹²⁸·(2⁴⁰+1)` or
`u1 < 0`, on `u2 > q` or `u2 < 0`, on `t1·c1^k ≠ gq^u1`, and on
`t2·c2^k ≠ pk^u1·f^u2`; return the CL-proof error if the flag was
cleared. -/
def clProofVerify {G : Type} (beq : G → G → Bool)
    (mulG : G → G → G) (powG : G → ℤ → G) (expoF : ℤ → G)
    (toBytes : G → List ℕ) (sha : List ℕ → List ℕ)
    (stilde : ℤ) (gq : G)
    (prf : CLProofM G) (statement : CLStateG G) :
    Except MulEcdsaError Unit :=
  let k : ℤ := (cl_challenge sha toBytes statement.cl_pub_key prf.t1 prf.t2
    statement.cipher : ℕ)
  let sample_size := stilde * 2 ^ 40 * 2 ^ SECURITY_PARAMETER * (2 ^ 40 + 1)
  let flag := true
  let flag := if prf.u1 > sample_size ∨ prf.u1 < 0 then false else flag
  let flag := if prf.u2 > (q : ℤ) ∨ prf.u2 < 0 then false else flag
  let t1c1k := mulG prf.t1 (powG statement.cipher.c1 k)
  let gqu1 := powG gq prf.u1
  let flag := if beq t1c1k gqu1 = false then false else flag
  let pku1 := powG statement.cl_pub_key prf.u1
  let fu2 := expoF prf.u2
  let c2k := powG statement.cipher.c2 k
  let t2c2k := mulG prf.t2 c2k
  let pku1fu2 := mulG pku1 fu2
  let flag := if beq t2c2k pku1fu2 = false then false else flag
  match flag with
  | true => .ok ()
  | false => .error .VrfyCLProofFailed

/-! ## Protocol messages and message handlers

`bincode`/`serde_json` serialisation (external crates) is modelled as
the identity, so a broadcast carries the logical message and a success
result carries the result value. -/

/-- `XAXPartyOneMsg` (`protocols/message.rs`); the CL payload of
`MtaPartyOneRoundOneMsg` is abstract. -/
inductive XAXPartyOneMsg (M : Type) where
  | KeyGenPartyOneRoundOneMsg (c : DLCommitments)
  | KeyGenPartyOneRoundTwoMsg (w : CommWitness)
  | MtaPartyOneRoundOneMsg (m : M)
  | SignPartyOneRoundOneMsg (mc : MtaConsistencyMsg) (nk : NonceKEMsg)
  deriving DecidableEq

/-- `XAXPartyTwoMsg` (`protocols/message.rs`); the ciphertext payload
of `MtaPartyTwoRoundOneMsg` is abstract. -/
inductive XAXPartyTwoMsg (C : Type) where
  | KeyGenFinish
  | KeyGenPartyTwoRoundOneMsg (m : KeyGenSecRoungMsg)
  | SignPartyTwoRoundOneMsg (c : DLCommitments)
  | MtaPartyTwoRoundOneMsg (c : C)
  | SignPartyTwoRoundTwoMsg (w : CommWitness) (s2 : Scalar)
  | SignPartyTwoRoundTwoMsgOnline (w : CommWitness)
  | SignPartyTwoRoundThreeMsgOnline (s2 : Scalar)
  deriving DecidableEq

/-- `SendingMessages` (`communication/sending_messages.rs`), with the
broadcast payload type `β` and the success-result payload type `ρ`. -/
inductive SendingMessages (β ρ : Type) where
  | NormalMessage (index : ℕ) (m : β)
  | SubsetMessage (m : β)
  | BroadcastMessage (m : β)
  | EmptyMsg
  | KeyGenSuccessWithResult (r : List ρ)
  | KeyRefreshSuccessWithResult (r : List ρ)
  | SignSuccessWithResult (r : ρ)
  deriving DecidableEq

/-- `party_one::Sign::msg_handler_sign` (`party_one.rs` lines 236-294).
The CL-side sub-results are parameters: `mta_first_round_msg` stands
for `mta_party_one.generate_send_msg(..)` and `mta_t_b` for the `t_b`
that `mta_party_one.handle_receive_msg` decrypts out of the received
ciphertext; `dlComZkVerify` is the hash-commitment opening check of
`DLComZK::verify`.  Both verification failures in the round-two
branches are `.unwrap()`ed in the source, i.e. they panic. -/
def msg_handler_sign_one {C M : Type}
    (dlComZkVerify : DLCommitments → CommWitness → Except MulEcdsaError Unit)
    (sha : List ℕ → List ℕ) (pointBytes : Scalar → List ℕ)
    (xcoord : Scalar → Option ℕ)
    (mta_first_round_msg : M) (mta_t_b : C → Scalar)
    (st : SignOne) (msg_received : XAXPartyTwoMsg C) :
    SignOne ×
      Outcome MulEcdsaError (SendingMessages (XAXPartyOneMsg M) Signature) :=
  match msg_received with
  | .SignPartyTwoRoundOneMsg msg =>
    let st' := get_nonce_com st msg
    (st', .ok (.BroadcastMessage (.MtaPartyOneRoundOneMsg mta_first_round_msg)))
  | .MtaPartyTwoRoundOneMsg msg =>
    let t_b := mta_t_b msg
    match generate_mta_consistency st t_b with
    | none => (st, .panicked)
    | some mta_consistency_msg =>
      (st, .ok (.BroadcastMessage
        (.SignPartyOneRoundOneMsg mta_consistency_msg (generate_nonce_ke_msg st))))
  | .SignPartyTwoRoundTwoMsg noncekemsg s_2 =>
    match verify_nonce_ke_msg dlComZkVerify sha pointBytes xcoord st noncekemsg with
    | .error _ => (st, .panicked)
    | .ok st' =>
      match online_sign xcoord st' s_2 with
      | .ok signature => (st', .ok (.SignSuccessWithResult signature))
      | _ => (st', .panicked)
  | .SignPartyTwoRoundTwoMsgOnline msg =>
    match verify_nonce_ke_msg dlComZkVerify sha pointBytes xcoord st msg with
    | .error _ => (st, .panicked)
    | .ok st' => (st', .ok .EmptyMsg)
  | .SignPartyTwoRoundThreeMsgOnline msg =>
    match online_sign xcoord st msg with
    | .ok signature => (st, .ok (.SignSuccessWithResult signature))
    | _ => (st, .panicked)
  | _ => (st, .ok .EmptyMsg)

/-- `party_two::Sign::msg_handler_sign` (`party_two.rs` lines 257-305).
The MtA reply is computed by `receive_and_send_msg` with the abstract
cipher operations; its error, and every verification failure in the
consistency branch, is `.unwrap()`ed in the source, i.e. panics. -/
def msg_handler_sign_two {P C : Type}
    (eval_scal : C → ℤ → C) (eval_sum : C → C → C)
    (encrypt : P → Scalar → C)
    (sha : List ℕ → List ℕ) (pointBytes : Scalar → List ℕ)
    (xcoord : Scalar → Option ℕ)
    (alpha_tag : Scalar) (proofOk : Bool)
    (st : SignTwo) (mta_party_two : MtaPartyTwo)
    (msg_received : XAXPartyOneMsg (CLStateM P C)) :
    (SignTwo × MtaPartyTwo) ×
      Outcome MulEcdsaError (SendingMessages (XAXPartyTwoMsg C) Signature) :=
  match msg_received with
  | .MtaPartyOneRoundOneMsg msg =>
    match receive_and_send_msg eval_scal eval_sum encrypt mta_party_two
        alpha_tag proofOk msg with
    | (mta', .ok mta_second_round_msg) =>
      ((st, mta'),
        .ok (.BroadcastMessage (.MtaPartyTwoRoundOneMsg mta_second_round_msg)))
    | (mta', .error _) => ((st, mta'), .panicked)
  | .SignPartyOneRoundOneMsg mtaconsistencymsg noncekemsg =>
    match verify_generate_mta_consistency st mta_party_two.t_a
        mtaconsistencymsg with
    | .ok st1 =>
      match verify_send_nonce_ke_msg sha pointBytes xcoord st1 noncekemsg with
      | .error _ => ((st1, mta_party_two), .panicked)
      | .ok (st2, party_two_nonce_ke_msg) =>
        if st2.online_offline then
          ((st2, mta_party_two), .ok (.BroadcastMessage
            (.SignPartyTwoRoundTwoMsgOnline party_two_nonce_ke_msg)))
        else
          let s_2 := online_sign_two st2
          ((st2, mta_party_two), .ok (.BroadcastMessage
            (.SignPartyTwoRoundTwoMsg party_two_nonce_ke_msg s_2)))
    | _ => ((st, mta_party_two), .panicked)
  | _ => ((st, mta_party_two), .ok .EmptyMsg)

/-- `party_one::KeyGen`. -/
structure KeyGenOne where
  keypair : EcKeyPair
  dl_com_zk_com : DLCommitments
  dl_com_zk_wit : CommWitness
  public_share_rec : Scalar
  deriving DecidableEq, Repr

/-- `party_two::KeyGen`. -/
structure KeyGenTwo where
  keypair : EcKeyPair
  dl_com_zk_com_rec : DLCommitments
  dl_com_zk_wit_rec : Option CommWitness
  dlog_proof : DLogProofM
  deriving DecidableEq, Repr

/-- `party_one::KeyGen::msg_handler_keygen` (`party_one.rs` lines
114-139).  A failing discrete-log verification in the round-one branch
is propagated as an error (`?`), faithful to the source. -/
def msg_handler_keygen_one {C M : Type}
    (sha : List ℕ → List ℕ) (pointBytes : Scalar → List ℕ)
    (st : KeyGenOne) (msg_received : XAXPartyTwoMsg C) :
    KeyGenOne ×
      Outcome MulEcdsaError (SendingMessages (XAXPartyOneMsg M) KeyGenResultOne) :=
  match msg_received with
  | .KeyGenPartyTwoRoundOneMsg msg =>
    match dlogProofVerify sha pointBytes msg.dl_proof msg.public_share with
    | .error _ => (st, .err .VrfyDlogFailed)
    | .ok _ =>
      let st' := { st with public_share_rec := msg.public_share }
      (st', .ok (.BroadcastMessage (.KeyGenPartyOneRoundTwoMsg st'.dl_com_zk_wit)))
  | .KeyGenFinish =>
    let keygen_result : KeyGenResultOne :=
      { keypair := st.keypair
        public_signing_key := st.public_share_rec + st.keypair.public_share }
    (st, .ok (.KeyGenSuccessWithResult [keygen_result]))
  | _ => (st, .ok .EmptyMsg)

/-- `party_two::KeyGen::msg_handler_keygen` (`party_two.rs` lines
96-122).  Failing commitment opening or discrete-log verification in
the round-two branch is propagated as an error (`?`). -/
def msg_handler_keygen_two {C M : Type}
    (dlComZkVerify : DLCommitments → CommWitness → Except MulEcdsaError Unit)
    (sha : List ℕ → List ℕ) (pointBytes : Scalar → List ℕ)
    (st : KeyGenTwo) (msg_received : XAXPartyOneMsg M) :
    KeyGenTwo ×
      Outcome MulEcdsaError (SendingMessages (XAXPartyTwoMsg C) KeyGenResultTwo) :=
  match msg_received with
  | .KeyGenPartyOneRoundOneMsg msg =>
    let st' := { st with dl_com_zk_com_rec := msg }
    (st', .ok (.BroadcastMessage (.KeyGenPartyTwoRoundOneMsg
      { public_share := st.keypair.public_share, dl_proof := st.dlog_proof })))
  | .KeyGenPartyOneRoundTwoMsg msg =>
    match dlComZkVerify st.dl_com_zk_com_rec msg with
    | .error e => (st, .err e)
    | .ok _ =>
      match dlogProofVerify sha pointBytes msg.d_log_proof msg.public_share with
      | .error _ => (st, .err .VrfyDlogFailed)
      | .ok _ =>
        let st' := { st with dl_com_zk_wit_rec := some msg }
        let keygen_result : KeyGenResultTwo :=
          { keypair := st.keypair
            public_signing_key := st.keypair.public_share + msg.public_share
            other_public_key := msg.public_share }
        (st', .ok (.KeyGenSuccessWithResult [keygen_result]))
  | _ => (st, .ok .EmptyMsg)

/-! ## Helper lemmas -/

/-- Accumulator law for the big-endian fold. -/
theorem foldl_mul_add (l : List ℕ) (acc : ℕ) :
    l.foldl (fun a b => a * 256 + b) acc =
      acc * 256 ^ l.length + l.foldl (fun a b => a * 256 + b) 0 := by
  induction l generalizing acc with
  | nil => simp
  | cons b l ih =>
    simp only [List.foldl_cons, List.length_cons]
    rw [ih (acc * 256 + b), ih (0 * 256 + b)]
    ring

/-- A byte string of valid bytes denotes fewer than `256 ^ length`. -/
theorem bytesToNatBE_lt_pow (l : List ℕ) (h : ∀ b ∈ l, b < 256) :
    bytesToNatBE l < 256 ^ l.length := by
  induction l with
  | nil => simp [bytesToNatBE]
  | cons b l ih =>
    have hb : b < 256 := h b (List.mem_cons_self b l)
    have hl : bytesToNatBE l < 256 ^ l.length :=
      ih fun x hx => h x (List.mem_cons_of_mem b hx)
    have : bytesToNatBE (b :: l) = b * 256 ^ l.length + bytesToNatBE l := by
      simp only [bytesToNatBE, List.foldl_cons]
      rw [foldl_mul_add l (0 * 256 + b)]
      norm_num
    rw [this, List.length_cons, pow_succ]
    calc b * 256 ^ l.length + bytesToNatBE l
        < b * 256 ^ l.length + 256 ^ l.length := by omega
      _ = (b + 1) * 256 ^ l.length := by ring
      _ ≤ 256 * 256 ^ l.length := by
          exact Nat.mul_le_mul_right _ (by omega)
      _ = 256 ^ l.length * 256 := by ring

/-- Splitting the big-endian value of a concatenation. -/
theorem bytesToNatBE_append (l1 l2 : List ℕ) :
    bytesToNatBE (l1 ++ l2) =
      bytesToNatBE l1 * 256 ^ l2.length + bytesToNatBE l2 := by
  simp only [bytesToNatBE, List.foldl_append]
  rw [foldl_mul_add l2 (List.foldl (fun a b => a * 256 + b) 0 l1)]

/-! ## C9 — BigInt floor division and modulus -/

/-- C9: the dashu `BigInt` backend realises floor division and floor
modulus at all four sign combinations of the spec's concrete scenario,
but the `mpz::Mpz` backend realises Euclidean division there:
`8.div_floor(−3) = −2` and `8.mod_floor(−3) = 2` (non-negative
remainder), not the floor values `−3` and `−1` the claim states; the
division identity `a = q·b + r` still holds for the Euclidean pair. -/
theorem mpz_div_mod_floor_is_euclidean :
    dashu_div_floor 8 3 = some 2 ∧ dashu_mod_floor 8 3 = some 2 ∧
    dashu_div_floor 8 (-3) = some (-3) ∧ dashu_mod_floor 8 (-3) = some (-1) ∧
    dashu_div_floor (-8) 3 = some (-3) ∧ dashu_mod_floor (-8) 3 = some 1 ∧
    dashu_div_floor (-8) (-3) = some 2 ∧ dashu_mod_floor (-8) (-3) = some (-2) ∧
    mpz_div_floor 8 (-3) = some (-2) ∧ mpz_mod_floor 8 (-3) = some 2 ∧
    mpz_div_floor 8 (-3) ≠ some (-3) ∧ mpz_mod_floor 8 (-3) ≠ some (-1) ∧
    (-2 : ℤ) * (-3) + 2 = 8 := by
  decide

/-! ## C7 — MtA abort behaviour -/

/-- C7 counterexample: with prior share `t_a = 0` and fresh draw
`alpha_tag = 1`, a failing CL-proof verification makes
`receive_and_send_msg` return `Err` — but `t_a` has already been
overwritten with `−1 ≠ 0`, so P2's state is *not* unchanged. -/
theorem receive_and_send_err_state_changed :
    (receive_and_send_msg (P := Unit) (C := Scalar)
        (fun c _ => c) (fun c _ => c) (fun _ m => m)
        ⟨1, 0⟩ 1 false ⟨0, ()⟩).2 =
      Except.error "verify cl encryption dl proof failed" ∧
    (receive_and_send_msg (P := Unit) (C := Scalar)
        (fun c _ => c) (fun c _ => c) (fun _ m => m)
        ⟨1, 0⟩ 1 false ⟨0, ()⟩).1.t_a ≠ (0 : Scalar) := by
  refine ⟨rfl, ?_⟩
  show (-1 : Scalar) ≠ 0
  decide

/-- C7 as amended: when the received CL proof fails to verify,
`receive_and_send_msg` returns `Err` with the fixed message, but the
returned state has `t_a` already replaced by `−alpha_tag` (the
assignment precedes the verification in the source); the factor `a` is
untouched. -/
theorem receive_and_send_err_overwrites_t_a {P C : Type}
    (eval_scal : C → ℤ → C) (eval_sum : C → C → C)
    (encrypt : P → Scalar → C)
    (st : MtaPartyTwo) (alpha_tag : Scalar) (mta_msg : CLStateM P C) :
    receive_and_send_msg eval_scal eval_sum encrypt st alpha_tag false mta_msg =
      ({ a := st.a, t_a := -alpha_tag },
        Except.error "verify cl encryption dl proof failed") := by
  rfl

/-! ## C4 — Fiat–Shamir challenge width -/

/-- C4 counterexample: for the concrete digest `0x01 ∥ 0³¹` the CL
challenge is its *first* 16 bytes big-endian (`2¹²⁰`) and the Schnorr
challenge is the full 32-byte value (`2²⁴⁸` as a scalar); neither
equals the low-order 128 bits of the digest (which are `0`). -/
theorem challenges_are_not_low_128_bits :
    clChallengeOfDigest (1 :: List.replicate 31 0) ≠
      specClaimedChallenge (1 :: List.replicate 31 0) ∧
    dlChallengeOfDigest (1 :: List.replicate 31 0) ≠
      ((specClaimedChallenge (1 :: List.replicate 31 0) : ℕ) : Scalar) := by
  decide

/-- C4 as amended: on every 32-byte digest the CL challenge equals the
digest's *high-order* 128 bits (the value divided by `2¹²⁸`), and the
Schnorr challenge is the full 256-bit digest value when it is a
canonical scalar and the zero scalar otherwise. -/
theorem challenge_of_digest_characterisation (h : List ℕ)
    (hlen : h.length = 32) (hbytes : ∀ b ∈ h, b < 256) :
    clChallengeOfDigest h = bytesToNatBE h / 2 ^ 128 ∧
    dlChallengeOfDigest h =
      (if bytesToNatBE h < q then ((bytesToNatBE h : ℕ) : Scalar) else 0) := by
  constructor
  · have hsplit : h = h.take 16 ++ h.drop 16 := (List.take_append_drop 16 h).symm
    have hdlen : (h.drop 16).length = 16 := by
      rw [List.length_drop, hlen]
    have hdlt : bytesToNatBE (h.drop 16) < 256 ^ 16 := by
      have := bytesToNatBE_lt_pow (h.drop 16)
        (fun b hb => hbytes b (List.mem_of_mem_drop hb))
      rwa [hdlen] at this
    have hpow : (256 : ℕ) ^ 16 = 2 ^ 128 := by norm_num
    have hval : bytesToNatBE h =
        bytesToNatBE (h.take 16) * 2 ^ 128 + bytesToNatBE (h.drop 16) := by
      conv_lhs => rw [hsplit]
      rw [bytesToNatBE_append, hdlen, hpow]
    have hdlt' : bytesToNatBE (h.drop 16) < 2 ^ 128 := hpow ▸ hdlt
    have hfirst : clChallengeOfDigest h = bytesToNatBE (h.take 16) := rfl
    rw [hfirst, hval, add_comm,
      Nat.add_mul_div_right _ _ (by positivity : (0:ℕ) < 2 ^ 128),
      Nat.div_eq_of_lt hdlt']
    omega
  · simp only [dlChallengeOfDigest, scalar_from_repr]
    split_ifs <;> rfl

/-- C4 amended-claim witness: on the all-`0xFF` digest the CL
challenge equals the high 128 bits and the Schnorr challenge follows
the `from_repr`-or-zero rule. -/
theorem challenge_of_digest_characterisation_witness :
    clChallengeOfDigest (List.replicate 32 255) =
      bytesToNatBE (List.replicate 32 255) / 2 ^ 128 ∧
    dlChallengeOfDigest (List.replicate 32 255) =
      (if bytesToNatBE (List.replicate 32 255) < q
       then ((bytesToNatBE (List.replicate 32 255) : ℕ) : Scalar) else 0) :=
  challenge_of_digest_characterisation (List.replicate 32 255)
    (by decide) (by decide)

/-! ## C6 — message-scalar derivation -/

/-- C6 counterexample: the all-`0xFF` 32-byte digest has value
`2²⁵⁶ − 1 ≥ q`; `Sign::new` stores the *zero* scalar for it
(`from_repr` fallback), not the digest reduced mod `q`. -/
theorem message_scalar_not_reduced_mod_q :
    signNewMessage (List.replicate 32 255) = 0 ∧
    signNewMessage (List.replicate 32 255) ≠
      ((bytesToNatBE (List.replicate 32 255) : ℕ) : Scalar) := by
  decide

/-- C6 as amended: for every 32-byte digest the stored session message
is the digest's value when that value is a canonical scalar (`< q`),
and the zero scalar otherwise — not the value reduced mod `q`. -/
theorem message_scalar_characterisation (bytes : List ℕ)
    (hlen : bytes.length = 32) (hbytes : ∀ b ∈ bytes, b < 256) :
    signNewMessage bytes =
      (if bytesToNatBE bytes < q then ((bytesToNatBE bytes : ℕ) : Scalar)
       else 0) := by
  have hlt : bytesToNatBE bytes < 2 ^ 256 := by
    have := bytesToNatBE_lt_pow bytes hbytes
    rw [hlen] at this
    calc bytesToNatBE bytes < 256 ^ 32 := this
      _ = 2 ^ 256 := by norm_num
  simp only [signNewMessage, scalar_from_bigint, scalar_from_repr,
    Int.natAbs_ofNat, Nat.mod_eq_of_lt hlt]
  split_ifs <;> rfl

/-- C6 amended-claim witness: the digest `0x01 ∥ 0³¹` has value
`2²⁴⁸ < q` and is stored as exactly that scalar. -/
theorem message_scalar_characterisation_witness :
    signNewMessage (1 :: List.replicate 31 0) =
      (if bytesToNatBE (1 :: List.replicate 31 0) < q
       then ((bytesToNatBE (1 :: List.replicate 31 0) : ℕ) : Scalar)
       else 0) :=
  message_scalar_characterisation (1 :: List.replicate 31 0)
    (by decide) (by decide)

/-! ## C10 — zero-challenge degeneration of the Schnorr proof -/

/-- C10: whenever the transcript digest of a Schnorr statement, read as
a 256-bit big-endian integer, is at least `q`, the Fiat–Shamir
challenge computed by `compute_challenge` is the zero scalar, and the
verification equation degenerates to `G·z = T`. -/
theorem dlog_challenge_zero_degenerates (sha : List ℕ → List ℕ)
    (pointBytes : Scalar → List ℕ) (P : Scalar) (prf : DLogProofM)
    (h : q ≤ bytesToNatBE
      (sha (pointBytes P ++ pointBytes prf.pk_t_rand_commitment))) :
    dlChallengeOfDigest
        (sha (pointBytes P ++ pointBytes prf.pk_t_rand_commitment)) = 0 ∧
    (dlogProofVerify sha pointBytes prf P = .ok () ↔
      prf.challenge_response = prf.pk_t_rand_commitment) := by
  have hzero : dlChallengeOfDigest
      (sha (pointBytes P ++ pointBytes prf.pk_t_rand_commitment)) = 0 := by
    simp [dlChallengeOfDigest, scalar_from_repr, Nat.not_lt.2 h]
  refine ⟨hzero, ?_⟩
  simp only [dlogProofVerify, hzero, mul_zero, add_zero]
  split_ifs with hc
  · simp [hc]
  · simp [hc]

/-- C10 witness: a digest function returning the all-`0xFF` digest has
value `2²⁵⁶ − 1 ≥ q`, the challenge is zero, and verification of the
proof `(T, z) = (3, 3)` succeeds exactly because `z = T`. -/
theorem dlog_challenge_zero_degenerates_witness :
    dlChallengeOfDigest
        ((fun _ => List.replicate 32 255)
          ((fun _ => ([] : List ℕ)) (0 : Scalar) ++
            (fun _ => ([] : List ℕ)) (DLogProofM.mk 3 3).pk_t_rand_commitment)) = 0 ∧
    (dlogProofVerify (fun _ => List.replicate 32 255) (fun _ => [])
        (DLogProofM.mk 3 3) 0 = .ok () ↔
      (DLogProofM.mk 3 3).challenge_response =
        (DLogProofM.mk 3 3).pk_t_rand_commitment) :=
  dlog_challenge_zero_degenerates (fun _ => List.replicate 32 255)
    (fun _ => []) 0 (DLogProofM.mk 3 3) (by decide)

/-! ## C5 — CL-proof acceptance condition -/

set_option maxRecDepth 8000 in
/-- C5 counterexample: a transcript with `u₂ = q` exactly passes the
verifier (with the group instantiated trivially, all bound and group
checks succeed), although the claim requires `u₂ < q` for acceptance. -/
theorem cl_verify_accepts_u2_eq_q :
    clProofVerify (G := Unit) (fun _ _ => true) (fun _ _ => ())
        (fun _ _ => ()) (fun _ => ()) (fun _ => []) (fun _ => [])
        1 () ⟨(), (), 0, (q : ℤ)⟩ ⟨⟨(), ()⟩, ()⟩ = Except.ok () ∧
    ¬((q : ℤ) < (q : ℤ)) := by
  exact ⟨rfl, lt_irrefl _⟩

/-- The result match of `CLProof::verify` succeeds exactly when the
flag is still set. -/
theorem match_ok_iff (b : Bool) :
    ((match b with
      | true => Except.ok ()
      | false => Except.error MulEcdsaError.VrfyCLProofFailed) =
        Except.ok ()) ↔ b = true := by
  cases b <;> simp

/-- One flag-clearing step of `CLProof::verify`. -/
theorem ite_false_eq_true (c : Prop) [Decidable c] (b : Bool) :
    ((if c then false else b) = true) ↔ (¬c ∧ b = true) := by
  split_ifs with hc <;> simp [hc]

/-- C5 as amended: `CLProof::verify` returns `Ok` exactly when
`0 ≤ u₁ ≤ s̃·2⁴⁰·2¹²⁸·(2⁴⁰+1)`, `0 ≤ u₂ ≤ q` (so `u₂ = q` is
*accepted* by the length test; only `u₂ > q` or `u₂ < 0` is rejected),
and the two group equations hold with `k` the recomputed challenge;
otherwise it returns the CL-proof verification error. -/
theorem cl_verify_ok_iff {G : Type} (beq : G → G → Bool)
    (mulG : G → G → G) (powG : G → ℤ → G) (expoF : ℤ → G)
    (toBytes : G → List ℕ) (sha : List ℕ → List ℕ)
    (stilde : ℤ) (gq : G) (prf : CLProofM G) (statement : CLStateG G) :
    clProofVerify beq mulG powG expoF toBytes sha stilde gq prf statement =
        Except.ok () ↔
      (0 ≤ prf.u1 ∧ prf.u1 ≤ stilde * 2 ^ 40 * 2 ^ 128 * (2 ^ 40 + 1) ∧
       0 ≤ prf.u2 ∧ prf.u2 ≤ (q : ℤ) ∧
       beq (mulG prf.t1 (powG statement.cipher.c1
           (cl_challenge sha toBytes statement.cl_pub_key prf.t1 prf.t2
             statement.cipher : ℕ)))
         (powG gq prf.u1) = true ∧
       beq (mulG prf.t2 (powG statement.cipher.c2
           (cl_challenge sha toBytes statement.cl_pub_key prf.t1 prf.t2
             statement.cipher : ℕ)))
         (mulG (powG statement.cl_pub_key prf.u1) (expoF prf.u2)) = true) := by
  simp only [clProofVerify, SECURITY_PARAMETER]
  rw [match_ok_iff, ite_false_eq_true, ite_false_eq_true, ite_false_eq_true,
    ite_false_eq_true]
  constructor
  · rintro ⟨hD, hC, hB, hA, -⟩
    push_neg at hA hB
    refine ⟨hA.2, hA.1, hB.2, hB.1, ?_, ?_⟩
    · simpa using hC
    · simpa using hD
  · rintro ⟨a1, a2, a3, a4, a5, a6⟩
    refine ⟨by simp [a6], by simp [a5], by omega, by omega, rfl⟩

/-! ## C1 — MtA correctness -/

/-- C1: for any homomorphic cipher satisfying the specification's
interface laws (decryption inverts encryption, and is additive over
`eval_sum` and scales under `eval_scal`), an honest run of the MtA
sub-protocol — P1 encrypts `b` (`generate_send_msg`), P2's
`receive_and_send_msg` returns `Ok`, P1 decrypts
(`handle_receive_msg`) — produces shares with
`t_a + t_b ≡ a·b (mod q)`. -/
theorem mta_honest_run_correct {P S C : Type}
    (encrypt : P → Scalar → C) (decrypt : S → C → Scalar)
    (eval_scal : C → ℤ → C) (eval_sum : C → C → C)
    (sk : S) (pk : P)
    (hEnc : ∀ m, decrypt sk (encrypt pk m) = m)
    (hSum : ∀ c1 c2,
      decrypt sk (eval_sum c1 c2) = decrypt sk c1 + decrypt sk c2)
    (hScal : ∀ c n, decrypt sk (eval_scal c n) = (n : Scalar) * decrypt sk c)
    (a b t_a0 t_b0 alpha_tag : Scalar) (st2 : MtaPartyTwo) (c_a : C)
    (h : receive_and_send_msg eval_scal eval_sum encrypt ⟨a, t_a0⟩
        alpha_tag true (generate_send_msg encrypt ⟨b, t_b0, pk, sk⟩ pk) =
      (st2, Except.ok c_a)) :
    st2.t_a + (handle_receive_msg decrypt ⟨b, t_b0, pk, sk⟩ sk c_a).t_b =
      a * b := by
  have hred : receive_and_send_msg eval_scal eval_sum encrypt ⟨a, t_a0⟩
      alpha_tag true (generate_send_msg encrypt ⟨b, t_b0, pk, sk⟩ pk) =
      (⟨a, -alpha_tag⟩,
        Except.ok (eval_sum (eval_scal (encrypt pk b) ((a.val : ℕ) : ℤ))
          (encrypt pk alpha_tag))) := rfl
  rw [hred] at h
  have hst : st2 = ⟨a, -alpha_tag⟩ := (congrArg Prod.fst h).symm
  have hca : Except.ok (α := C) (ε := String)
      (eval_sum (eval_scal (encrypt pk b) ((a.val : ℕ) : ℤ))
        (encrypt pk alpha_tag)) = Except.ok c_a := congrArg Prod.snd h
  have hca' : c_a = eval_sum (eval_scal (encrypt pk b) ((a.val : ℕ) : ℤ))
      (encrypt pk alpha_tag) := (Except.ok.inj hca).symm
  subst hst
  show -alpha_tag + decrypt sk c_a = a * b
  rw [hca', hSum, hScal, hEnc, hEnc]
  have hval : (((a.val : ℕ) : ℤ) : Scalar) = a := by
    rw [Int.cast_natCast, ZMod.natCast_val, ZMod.cast_id]
  rw [hval]
  ring

set_option maxRecDepth 8000 in
/-- C1 witness: the interface laws hold for the transparent cipher
(`C = Scalar`, encryption the identity), and the honest run on
`a = 3`, `b = 5`, `alpha_tag = 7` yields shares summing to `15`. -/
theorem mta_honest_run_correct_witness :
    (⟨3, -7⟩ : MtaPartyTwo).t_a +
      (handle_receive_msg (P := Unit) (S := Unit) (fun _ c => c)
        ⟨5, 0, (), ()⟩ () 22).t_b = 3 * 5 :=
  mta_honest_run_correct (fun _ m => m) (fun _ c => c)
    (fun c n => (n : Scalar) * c) (· + ·) () ()
    (fun _ => rfl) (fun _ _ => rfl) (fun _ _ => rfl)
    3 5 0 0 7 ⟨3, -7⟩ 22 (by decide)

/-! ## C3 — reshared sharing of the signing key -/

/-- C3 counterexample: an honest session with
`x₁ = x₂ = k₁ = r₁ = ρ₂ = 1`, `t_a = 0`, `t_b = 1` (so
`t_a + t_b = k₁·ρ₂` as MtA guarantees): P1's consistency message is
`(X̃₁, r₁, cc) = (1, 1, 1)`, P2's verification succeeds and sets
`k₂ = x₂ − t_a − cc = 0`, yet `k₁ + k₂ = 1 ≠ 2 = x₁ + x₂`. -/
theorem reshared_shares_do_not_sum_to_key :
    generate_mta_consistency
        ⟨⟨0, 0⟩, ⟨1, 1⟩, some ⟨⟨1, 1⟩, 2⟩, ⟨0, 0⟩, 1, 0, 0, ⟨0, 0⟩, false⟩ 1 =
      some ⟨1, 1, 1⟩ ∧
    (0 : Scalar) + 1 = 1 * 1 ∧
    verify_generate_mta_consistency
        ⟨⟨1, 1⟩, ⟨⟨0, 0⟩, ⟨0, 0, 0, ⟨0, 0⟩⟩⟩, some ⟨⟨1, 1⟩, 2, 1⟩,
          0, 0, 0, 0, false, false⟩ 0 ⟨1, 1, 1⟩ =
      Outcome.ok
        ⟨⟨1, 1⟩, ⟨⟨0, 0⟩, ⟨0, 0, 0, ⟨0, 0⟩⟩⟩, some ⟨⟨1, 1⟩, 2, 1⟩,
          0, 0, 1, 0, false, false⟩ ∧
    (1 : Scalar) + 0 ≠ 1 + 1 := by
  refine ⟨?_, by decide, ?_, by decide⟩
  · decide
  · decide

/-- C3 as amended: after P2's `verify_generate_mta_consistency`
succeeds, the sharing of the joint key is *weighted*: with `k₁` the
discrete log of the received reshared public share and `x₁` that of
P2's record of P1's key-gen share,
`k₁·(r₁ + ρ₂) + k₂ ≡ x₁ + x₂ (mod q)` — not `k₁ + k₂ ≡ x`. -/
theorem reshared_shares_weighted_sum (st : SignTwo) (kg : KeyGenResultTwo)
    (hkg : st.keygen_result = some kg) (t_a : Scalar)
    (msg : MtaConsistencyMsg) (st' : SignTwo)
    (h : verify_generate_mta_consistency st t_a msg = Outcome.ok st') :
    msg.reshared_public_share * (msg.r1 + st.nonce_pair.secret_share) +
      st'.reshared_secret_share =
    kg.other_public_key + kg.keypair.secret_share := by
  simp only [verify_generate_mta_consistency, hkg] at h
  by_cases hcond : t_a + msg.cc =
      msg.reshared_public_share * (msg.r1 + st.nonce_pair.secret_share) -
        kg.other_public_key
  · rw [if_neg (not_not_intro hcond)] at h
    injection h with h1
    subst h1
    show msg.reshared_public_share * (msg.r1 + st.nonce_pair.secret_share) +
        (kg.keypair.secret_share - t_a - msg.cc) =
      kg.other_public_key + kg.keypair.secret_share
    linear_combination -hcond
  · rw [if_pos hcond] at h
    exact Outcome.noConfusion h

/-- C3 amended-claim witness: in the counterexample session the
weighted relation holds, `1·(1 + 1) + 0 = 1 + 1`. -/
theorem reshared_shares_weighted_sum_witness :
    (⟨1, 1, 1⟩ : MtaConsistencyMsg).reshared_public_share *
        ((⟨1, 1, 1⟩ : MtaConsistencyMsg).r1 +
          (⟨⟨1, 1⟩, ⟨⟨0, 0⟩, ⟨0, 0, 0, ⟨0, 0⟩⟩⟩, some ⟨⟨1, 1⟩, 2, 1⟩,
            0, 0, 0, 0, false, false⟩ : SignTwo).nonce_pair.secret_share) +
      (⟨⟨1, 1⟩, ⟨⟨0, 0⟩, ⟨0, 0, 0, ⟨0, 0⟩⟩⟩, some ⟨⟨1, 1⟩, 2, 1⟩,
        0, 0, 1, 0, false, false⟩ : SignTwo).reshared_secret_share =
    (⟨⟨1, 1⟩, 2, 1⟩ : KeyGenResultTwo).other_public_key +
      (⟨⟨1, 1⟩, 2, 1⟩ : KeyGenResultTwo).keypair.secret_share :=
  reshared_shares_weighted_sum
    ⟨⟨1, 1⟩, ⟨⟨0, 0⟩, ⟨0, 0, 0, ⟨0, 0⟩⟩⟩, some ⟨⟨1, 1⟩, 2, 1⟩,
      0, 0, 0, 0, false, false⟩
    ⟨⟨1, 1⟩, 2, 1⟩ rfl 0 ⟨1, 1, 1⟩
    ⟨⟨1, 1⟩, ⟨⟨0, 0⟩, ⟨0, 0, 0, ⟨0, 0⟩⟩⟩, some ⟨⟨1, 1⟩, 2, 1⟩,
      0, 0, 1, 0, false, false⟩
    (by decide)

/-! ## C2 — end-to-end signing correctness -/

/-- C2: whenever `online_sign` returns `Ok` with a signature, the
in-code verifier `Signature::verify` has accepted it against the joint
public key and the session message (the signature is returned only
after that check), the signature also passes the specification's
standard ECDSA acceptance, and `s ≤ q/2`. -/
theorem online_sign_only_returns_verified (xcoord : Scalar → Option ℕ)
    (st : SignOne) (s2_rec : Scalar) (sig : Signature)
    (h : online_sign xcoord st s2_rec = Outcome.ok sig) :
    ∃ kg, st.keygen_result = some kg ∧
      signatureVerify xcoord sig kg.public_signing_key st.message =
        Except.ok () ∧
      ecdsaVerifySpec xcoord sig kg.public_signing_key st.message ∧
      scalar_to_bigint sig.s ≤ q / 2 := by
  cases hkg : st.keygen_result with
  | none => simp [online_sign, hkg] at h
  | some kg =>
    simp only [online_sign, hkg] at h
    split at h
    next u heq =>
      cases u
      injection h with h1
      subst h1
      refine ⟨kg, rfl, heq, ?_, ?_⟩
      · simp only [signatureVerify] at heq
        split at heq
        next hx => exact absurd heq (by simp)
        next x hx =>
          split_ifs at heq with hc
          · obtain ⟨hr, hs⟩ := hc
            refine ⟨x, hx, ?_⟩
            rw [← hr]
            exact (Nat.mod_eq_of_lt (ZMod.val_lt _)).symm
      · simp only [signatureVerify] at heq
        split at heq
        next hx => exact absurd heq (by simp)
        next x hx =>
          split_ifs at heq with hc
          · obtain ⟨-, hs⟩ := hc
            simp only [scalar_to_bigint] at hs ⊢
            omega
    next e heq => exact Outcome.noConfusion h

set_option maxRecDepth 8000 in
/-- C2 witness: with the x-coordinate map constantly `1` and a session
state whose shares are all `1`, `online_sign` on `s₂ = 1` returns
`Ok (r, s) = (1, 2)`, which passes both verifiers, with `2 ≤ q/2`. -/
theorem online_sign_only_returns_verified_witness :
    ∃ kg,
      (⟨⟨0, 0⟩, ⟨1, 1⟩, some ⟨⟨1, 1⟩, 2⟩, ⟨1, 1⟩, 1, 1, 1, ⟨0, 0⟩,
          false⟩ : SignOne).keygen_result = some kg ∧
      signatureVerify (fun _ => some 1) ⟨2, 1⟩ kg.public_signing_key
          (⟨⟨0, 0⟩, ⟨1, 1⟩, some ⟨⟨1, 1⟩, 2⟩, ⟨1, 1⟩, 1, 1, 1, ⟨0, 0⟩,
            false⟩ : SignOne).message = Except.ok () ∧
      ecdsaVerifySpec (fun _ => some 1) ⟨2, 1⟩ kg.public_signing_key
          (⟨⟨0, 0⟩, ⟨1, 1⟩, some ⟨⟨1, 1⟩, 2⟩, ⟨1, 1⟩, 1, 1, 1, ⟨0, 0⟩,
            false⟩ : SignOne).message ∧
      scalar_to_bigint (⟨2, 1⟩ : Signature).s ≤ q / 2 :=
  online_sign_only_returns_verified (fun _ => some 1)
    ⟨⟨0, 0⟩, ⟨1, 1⟩, some ⟨⟨1, 1⟩, 2⟩, ⟨1, 1⟩, 1, 1, 1, ⟨0, 0⟩, false⟩
    1 ⟨2, 1⟩ (by decide)

/-! ## C8 — off-sequence messages -/

/-- C8 counterexample: P1's signing handler, given the off-sequence
message `KeyGenFinish`, returns the *success* value
`Ok(SendingMessages::EmptyMsg)` and leaves the state untouched — it
does not return an error terminating the session. -/
theorem sign_handler_ignores_off_sequence_message :
    msg_handler_sign_one (C := Unit) (M := Unit)
        (fun _ _ => Except.ok ()) (fun _ => []) (fun _ => []) (fun _ => none)
        () (fun _ => 0)
        ⟨⟨0, 0⟩, ⟨0, 0⟩, none, ⟨0, 0⟩, 0, 0, 0, ⟨0, 0⟩, false⟩
        XAXPartyTwoMsg.KeyGenFinish =
      (⟨⟨0, 0⟩, ⟨0, 0⟩, none, ⟨0, 0⟩, 0, 0, 0, ⟨0, 0⟩, false⟩,
        Outcome.ok SendingMessages.EmptyMsg) := rfl

/-- C8 as amended: every message outside a handler's expected set is
*silently ignored* — all four handlers return the success value
`Ok(EmptyMsg)` for it with the state unchanged — rather than producing
an error.  Failing verifications are returned as errors only by the
key-generation handlers; in the signing handlers they are
`.unwrap()`ed and so panic instead of being returned. -/
theorem off_sequence_messages_are_ignored
    {C M P : Type} (e : MulEcdsaError)
    (dlComZkVerify : DLCommitments → CommWitness → Except MulEcdsaError Unit)
    (sha : List ℕ → List ℕ) (pointBytes : Scalar → List ℕ)
    (xcoord : Scalar → Option ℕ)
    (mta1 : M) (mta_t_b : C → Scalar)
    (eval_scal : C → ℤ → C) (eval_sum : C → C → C)
    (encrypt : P → Scalar → C) (alpha_tag : Scalar) (proofOk : Bool)
    (s1 : SignOne) (s2 : SignTwo) (mta2 : MtaPartyTwo)
    (k1 : KeyGenOne) (k2 : KeyGenTwo)
    (m : KeyGenSecRoungMsg) (c : DLCommitments) (w : CommWitness)
    (ct : C) (sc : Scalar) (mc : MtaConsistencyMsg) (nk : NonceKEMsg)
    (mm : M) :
    msg_handler_sign_one dlComZkVerify sha pointBytes xcoord mta1 mta_t_b s1
        .KeyGenFinish = (s1, .ok .EmptyMsg) ∧
    msg_handler_sign_one dlComZkVerify sha pointBytes xcoord mta1 mta_t_b s1
        (.KeyGenPartyTwoRoundOneMsg m) = (s1, .ok .EmptyMsg) ∧
    msg_handler_sign_two eval_scal eval_sum encrypt sha pointBytes xcoord
        alpha_tag proofOk s2 mta2 (.KeyGenPartyOneRoundOneMsg c) =
      ((s2, mta2), .ok .EmptyMsg) ∧
    msg_handler_sign_two eval_scal eval_sum encrypt sha pointBytes xcoord
        alpha_tag proofOk s2 mta2 (.KeyGenPartyOneRoundTwoMsg w) =
      ((s2, mta2), .ok .EmptyMsg) ∧
    msg_handler_keygen_one (C := C) (M := M) sha pointBytes k1
        (.SignPartyTwoRoundOneMsg c) = (k1, .ok .EmptyMsg) ∧
    msg_handler_keygen_one (C := C) (M := M) sha pointBytes k1
        (.MtaPartyTwoRoundOneMsg ct) = (k1, .ok .EmptyMsg) ∧
    msg_handler_keygen_one (C := C) (M := M) sha pointBytes k1
        (.SignPartyTwoRoundTwoMsg w sc) = (k1, .ok .EmptyMsg) ∧
    msg_handler_keygen_one (C := C) (M := M) sha pointBytes k1
        (.SignPartyTwoRoundTwoMsgOnline w) = (k1, .ok .EmptyMsg) ∧
    msg_handler_keygen_one (C := C) (M := M) sha pointBytes k1
        (.SignPartyTwoRoundThreeMsgOnline sc) = (k1, .ok .EmptyMsg) ∧
    msg_handler_keygen_two (C := C) (M := M) dlComZkVerify sha pointBytes k2
        (.MtaPartyOneRoundOneMsg mm) = (k2, .ok .EmptyMsg) ∧
    msg_handler_keygen_two (C := C) (M := M) dlComZkVerify sha pointBytes k2
        (.SignPartyOneRoundOneMsg mc nk) = (k2, .ok .EmptyMsg) ∧
    msg_handler_keygen_two (C := C) (M := M) (fun _ _ => Except.error e) sha
        pointBytes k2 (.KeyGenPartyOneRoundTwoMsg w) = (k2, .err e) ∧
    msg_handler_sign_one (fun _ _ => Except.error e) sha pointBytes xcoord
        mta1 mta_t_b s1 (.SignPartyTwoRoundTwoMsgOnline w) =
      (s1, .panicked) :=
  ⟨rfl, rfl, rfl, rfl, rfl, rfl, rfl, rfl, rfl, rfl, rfl, rfl, rfl⟩

end MPECDSA
